import Mathlib

/-!
Shallow embedding of the ksense-assessment patient pipeline (src/index.ts):
field normalization, risk scoring, the retrying HTTP transport, the
pagination driver and the alert-set classification, together with theorems
settling the specification claims.

JavaScript numbers are modelled as rationals plus the special values
NaN and the two infinities; JavaScript runtime values reaching the
normalizers are modelled by the small universe JsValue.
-/

/-- Model of a JavaScript number: a finite value (as a rational) or one of
the non-finite values NaN, Infinity, -Infinity. -/
inductive JsNum where
  | finite (q : ℚ)
  | nan
  | inf
  | negInf
deriving DecidableEq

/-- Model of a JavaScript runtime value as it reaches the pipeline from
the untrusted API: a number, a string, a boolean, null, undefined
(absent field), or any other value (object, array). The typeof checks of
the normalizers reject booleans and objects alike; booleans are kept
separate because the truthiness test of main distinguishes false from
objects. -/
inductive JsValue where
  | num (n : JsNum)
  | str (s : String)
  | bool (b : Bool)
  | null
  | undef
  | other
deriving DecidableEq

/-- Whitespace trimming on character lists, modelling String.prototype.trim
as used by the normalizers (the String functions of the Lean library are
not kernel-reducible, so the embedding works on character lists). -/
def trimChars (cs : List Char) : List Char :=
  ((cs.dropWhile Char.isWhitespace).reverse.dropWhile Char.isWhitespace).reverse

/-- Numeric value of a list of decimal digit characters. -/
def charsVal (cs : List Char) : ℕ :=
  cs.foldl (fun a c => a * 10 + (Char.toNat c - 48)) 0

/-- True when the list is all decimal digits. -/
def allDigits (cs : List Char) : Bool :=
  cs.all (fun c => c.isDigit)

/-- Modelled from the host language: the mantissa part of a JavaScript
decimal numeric literal, digits with at most one dot and at least one
digit overall (covers forms such as 123, 1.5, .5, 5.). Returns the digit
value together with the number of fractional digits, so the denominated
value is digits divided by ten to the fractional length. -/
def parseMantissa (cs : List Char) : Option (ℕ × ℕ) :=
  match cs.splitOn '.' with
  | [w] =>
      if w.isEmpty then none
      else if allDigits w then some (charsVal w, 0) else none
  | [w, f] =>
      if w.isEmpty && f.isEmpty then none
      else if allDigits w && allDigits f then
        some (charsVal w * 10 ^ f.length + charsVal f, f.length)
      else none
  | _ => none

/-- The rational value of a decimal mantissa with fracLen fractional
digits scaled by ten to the power ev. Stated with a single Rat.divInt so
that the kernel can evaluate it (the Rat field operations are marked
irreducible). -/
def decValue (digits : ℕ) (fracLen : ℕ) (ev : ℤ) : ℚ :=
  let net : ℤ := ev - fracLen
  if 0 ≤ net then Rat.divInt (digits * 10 ^ net.toNat) 1
  else Rat.divInt digits (10 ^ (-net).toNat)

/-- Modelled from the host language: the exponent part of a JavaScript
numeric literal, an optionally signed decimal integer. -/
def parseExpPart (cs : List Char) : Option ℤ :=
  match cs with
  | '+' :: rest =>
      if rest.isEmpty then none
      else if allDigits rest then some ((charsVal rest : ℤ)) else none
  | '-' :: rest =>
      if rest.isEmpty then none
      else if allDigits rest then some (-(charsVal rest : ℤ)) else none
  | rest =>
      if rest.isEmpty then none
      else if allDigits rest then some ((charsVal rest : ℤ)) else none

/-- Modelled from the host language: an unsigned JavaScript decimal
literal, a mantissa with an optional e or E exponent. -/
def parseUnsigned (cs : List Char) : Option ℚ :=
  match (cs.map (fun c => if c = 'E' then 'e' else c)).splitOn 'e' with
  | [m] =>
      match parseMantissa m with
      | some (d, k) => some (decValue d k 0)
      | none => none
  | [m, e] =>
      match parseMantissa m, parseExpPart e with
      | some (d, k), some ev => some (decValue d k ev)
      | _, _ => none
  | _ => none

/-- Modelled from the host language: the JavaScript Number() conversion on
an already-trimmed character sequence. The empty string converts to 0;
the Infinity spellings convert to the infinities; otherwise an optionally
signed decimal literal is parsed, and anything else is NaN. (Hexadecimal,
octal and binary literal prefixes are not modelled; none of the scoring
paths in this program depend on them.) -/
def jsStringToNumber (cs : List Char) : JsNum :=
  if cs.isEmpty then .finite 0
  else if cs = ("Infinity").toList ∨ cs = ("+Infinity").toList then .inf
  else if cs = ("-Infinity").toList then .negInf
  else
    match cs with
    | '+' :: rest => (parseUnsigned rest).elim .nan .finite
    | '-' :: rest => (parseUnsigned rest).elim .nan (fun q => .finite (Rat.neg q))
    | rest => (parseUnsigned rest).elim .nan .finite

/-- The string branch of toFiniteNumber (index.ts lines 49-52): trim,
convert with Number(), keep the result only when finite. -/
def stringToFiniteNumber (cs : List Char) : Option ℚ :=
  match jsStringToNumber (trimChars cs) with
  | .finite q => some q
  | _ => none

/-- Embedding of toFiniteNumber (index.ts lines 47-54): a finite number is
returned as is, a string is trimmed and converted via Number() and kept
only if finite, everything else is null (modelled as none). -/
def toFiniteNumber : JsValue → Option ℚ
  | .num (.finite q) => some q
  | .num _ => none
  | .str s => stringToFiniteNumber s.toList
  | _ => none

/-- Embedding of parseBloodPressure (index.ts lines 56-70): requires a
non-empty-after-trim string, splits on every slash, requires exactly two
parts whose trimmed forms are non-empty and both convert to finite numbers
via toFiniteNumber. -/
def parseBloodPressure : JsValue → Option (ℚ × ℚ)
  | .str bp =>
      if (trimChars bp.toList).isEmpty then none
      else
        match bp.toList.splitOn '/' with
        | [s1, s2] =>
            let sysStr := trimChars s1
            let diaStr := trimChars s2
            if sysStr.isEmpty ∨ diaStr.isEmpty then none
            else
              match stringToFiniteNumber sysStr, stringToFiniteNumber diaStr with
              | some sys, some dia => some (sys, dia)
              | _, _ => none
        | _ => none
  | _ => none

/-- Embedding of the systolic point computation inside bloodPressureScore
(index.ts lines 80-87). -/
def sysPoints (sys : ℚ) : ℕ :=
  if sys < 120 then 1
  else if 120 ≤ sys ∧ sys ≤ 129 then 2
  else if 130 ≤ sys ∧ sys ≤ 139 then 3
  else 4

/-- Embedding of the diastolic point computation inside bloodPressureScore
(index.ts line 90). -/
def diaPoints (dia : ℚ) : ℕ :=
  if dia < 80 then 1
  else if 80 ≤ dia ∧ dia ≤ 89 then 3
  else 4

/-- Embedding of bloodPressureScore (index.ts lines 73-93): 0 when the
blood pressure fails to parse, otherwise the larger of the systolic and
diastolic category points. -/
def bloodPressureScore (bp : JsValue) : ℕ :=
  match parseBloodPressure bp with
  | none => 0
  | some (sys, dia) => max (sysPoints sys) (diaPoints dia)

/-- The constant 99.5, written with Rat.divInt so the kernel can compute
with it (decimal Rat literals are irreducible). -/
def q995 : ℚ := Rat.divInt 995 10

/-- The constant 99.6 as a kernel-computable rational. -/
def q996 : ℚ := Rat.divInt 996 10

/-- The constant 100.9 as a kernel-computable rational. -/
def q1009 : ℚ := Rat.divInt 1009 10

/-- The constant 101.0 as a kernel-computable rational. -/
def q1010 : ℚ := Rat.divInt 1010 10

/-- Embedding of temperatureScore (index.ts lines 95-103): the thresholds
are 99.5, 99.6, 100.9 and 101.0. -/
def temperatureScore (temp : JsValue) : ℕ :=
  match toFiniteNumber temp with
  | none => 0
  | some t =>
      if t ≤ q995 then 0
      else if q996 ≤ t ∧ t ≤ q1009 then 1
      else if q1010 ≤ t then 2
      else 0

/-- Embedding of ageScore (index.ts lines 105-109). -/
def ageScore (age : JsValue) : ℕ :=
  match toFiniteNumber age with
  | none => 0
  | some a => if 65 < a then 2 else 1

/-- Embedding of the Patient record (index.ts lines 13-23) restricted to
the fields the pipeline reads, with the identifier narrowed to an
optional string as the declared type states (none models an absent,
null or undefined identifier); the three vital fields are untrusted
JavaScript values. The cast at index.ts line 201 is unchecked, so at
runtime the identifier field can hold any value; RawPatient further
below drops this narrowing and carries the identifier as a full
JavaScript value, and the properties that depend on the identifier's
runtime type are stated over RawPatient. -/
structure Patient where
  patient_id : Option String
  age : JsValue
  temperature : JsValue
  blood_pressure : JsValue
deriving DecidableEq

/-- Embedding of hasDataQualityIssue (index.ts lines 111-116). -/
def hasDataQualityIssue (p : Patient) : Bool :=
  (parseBloodPressure p.blood_pressure).isNone
    || (toFiniteNumber p.temperature).isNone
    || (toFiniteNumber p.age).isNone

/-- Embedding of isFeverPatient (index.ts lines 118-121): fever means the
temperature normalizes and is at least 99.6. -/
def isFeverPatient (p : Patient) : Bool :=
  match toFiniteNumber p.temperature with
  | none => false
  | some t => decide (q996 ≤ t)

/-- Embedding of totalRiskScore (index.ts lines 123-129). -/
def totalRiskScore (p : Patient) : ℕ :=
  bloodPressureScore p.blood_pressure + temperatureScore p.temperature
    + ageScore p.age

/-- The retryable HTTP status set of fetchWithRetry (index.ts line 146). -/
def isRetryableStatus (s : ℕ) : Bool :=
  s == 429 || s == 500 || s == 503

/-- The ok-range test of the fetch Response (status 200 to 299), used by
the res.ok check at index.ts line 157. -/
def isOk (s : ℕ) : Bool :=
  decide (200 ≤ s ∧ s ≤ 299)

/-- What one fetch attempt can observe: a network-level failure of fetch
itself, or an HTTP response with a status, a body text, and a flag saying
whether the body parses as JSON. -/
inductive HttpResp where
  | net
  | resp (status : ℕ) (body : String) (goodJson : Bool)

/-- The distinct failures fetchWithRetry can surface, mirroring the error
messages it throws: the exhausted-retries error for a retryable status
(index.ts line 149), the plain HTTP error for a non-success status
(line 159), a network error, and a JSON body-parse error. -/
inductive FailReason where
  | exhausted (status : ℕ) (body : String)
  | fatalHttp (status : ℕ) (body : String)
  | network
  | badJson
deriving DecidableEq

/-- Outcome of fetchWithRetry: the parsed body on success, or the error
that escaped the loop. -/
inductive FetchResult where
  | success (body : String)
  | failure (f : FailReason)
deriving DecidableEq

/-- The outcome of a single iteration of the fetchWithRetry loop body
(index.ts lines 143-169) before the retry decision. Only an ok status
with a parsing body returns; every other outcome is a failure value that
the loop retries while attempts remain. Note that the non-retryable
HTTP error thrown at line 159 is raised inside the try block, so it is
caught by the catch at line 163 exactly like network and JSON errors;
the embedding preserves that control flow. -/
def attemptResult : HttpResp → FetchResult
  | .net => .failure .network
  | .resp s b g =>
      if isRetryableStatus s then .failure (.exhausted s b)
      else if isOk s then
        if g then .success b else .failure .badJson
      else .failure (.fatalHttp s b)

/-- The fetchWithRetry loop (index.ts lines 142-170), recursing on the
number of attempts remaining after the current one. Alongside the result
it returns the list of backoff waits performed, each equal to
baseDelayMs times two to the attempt index, plus the jitter drawn for
that attempt (the Math.random jitter is modelled as an arbitrary
function of the attempt index). -/
def fetchGo (baseDelayMs : ℕ) (jitter : ℕ → ℕ) (responses : ℕ → HttpResp) :
    ℕ → ℕ → FetchResult × List ℕ
  | attempt, 0 =>
      (attemptResult (responses attempt), [])
  | attempt, r + 1 =>
      match attemptResult (responses attempt) with
      | .success b => (.success b, [])
      | .failure _ =>
          let rest := fetchGo baseDelayMs jitter responses (attempt + 1) r
          (rest.1, (baseDelayMs * 2 ^ attempt + jitter attempt) :: rest.2)

/-- Embedding of fetchWithRetry (index.ts lines 134-174): run the loop
from attempt 0 with the configured number of retries remaining. -/
def fetchWithRetry (retries baseDelayMs : ℕ) (jitter : ℕ → ℕ)
    (responses : ℕ → HttpResp) : FetchResult × List ℕ :=
  fetchGo baseDelayMs jitter responses 0 retries

/-- A transient attempt outcome in the sense of the specification: a
retryable HTTP status, a network-level failure, or an ok response whose
body fails to parse as JSON. -/
def isTransient : HttpResp → Bool
  | .net => true
  | .resp s _ g => isRetryableStatus s || (isOk s && !g)

/-- An element of the data array of a page response: either an object
carrying a patient_id field (the shape the filter at index.ts line 200
accepts), or any other value. -/
inductive RawEntry where
  | patientLike (p : Patient)
  | nonPatient
deriving DecidableEq

/-- The filter body of fetchAllPatients (index.ts lines 199-203): keep an
entry only when it is an object with a patient_id field. -/
def entryToPatient : RawEntry → Option Patient
  | .patientLike p => some p
  | .nonPatient => none

/-- A page response as fetchAllPatients consumes it: the data field when
it is an array (none models data absent or not an array, index.ts
line 195), plus the untrusted hasNext pagination metadata, carried only
to state independence theorems. -/
structure PageResp where
  data : Option (List RawEntry)
  hasNext : Bool
deriving DecidableEq

/-- The defensive extraction of the record collection from a page
(index.ts line 195): a missing or non-array data field is treated as
an empty array. -/
def pageData (pg : PageResp) : List RawEntry :=
  pg.data.getD []

/-- Embedding of the fetchAllPatients pagination loop (index.ts lines
179-212) over the sequence of pages the server would serve; a server
sends finitely many non-empty pages, so the loop is the recursion below
(pages past the end of the list would have empty data and stop the loop
at once). The loop breaks when the extracted raw data array is empty,
before the record-like filter is applied. -/
def fetchAllPatients : List PageResp → List Patient
  | [] => []
  | pg :: rest =>
      if (pageData pg).isEmpty then []
      else (pageData pg).filterMap entryToPatient ++ fetchAllPatients rest

/-- Modelled from the specification wording of the pagination termination
rule: terminate at the first page that yields zero record-like entries,
that is, stop when the filtered record collection (not the raw data
array) is empty. Stated only to compare with fetchAllPatients. -/
def fetchAllPatientsSpecRule : List PageResp → List Patient
  | [] => []
  | pg :: rest =>
      if ((pageData pg).filterMap entryToPatient).isEmpty then []
      else (pageData pg).filterMap entryToPatient ++ fetchAllPatientsSpecRule rest

/-- The three alert identifier sets built by main (index.ts lines
258-260). Finsets model the JavaScript Set objects: insertion is
idempotent and only membership matters to the final sorted lists. -/
structure AlertSets where
  highRisk : Finset String
  fever : Finset String
  dataIssues : Finset String

/-- One iteration of the classification loop of main (index.ts lines
262-271): skip the record when its identifier is falsy (absent, null or
the empty string), otherwise add the identifier to each set whose
condition holds. -/
def processPatient (sets : AlertSets) (p : Patient) : AlertSets :=
  match p.patient_id with
  | none => sets
  | some id =>
      if id = "" then sets
      else
        { highRisk := if 4 ≤ totalRiskScore p then insert id sets.highRisk else sets.highRisk
          fever := if isFeverPatient p then insert id sets.fever else sets.fever
          dataIssues := if hasDataQualityIssue p then insert id sets.dataIssues else sets.dataIssues }

/-- The classification loop of main over all fetched records, starting
from three empty sets (index.ts lines 258-271). -/
def classify (patients : List Patient) : AlertSets :=
  patients.foldl processPatient ⟨∅, ∅, ∅⟩

/-- The submission payload type (index.ts lines 217-221). -/
structure SubmissionBody where
  high_risk_patients : List String
  fever_patients : List String
  data_quality_issues : List String

/-- The finalization of main (index.ts lines 273-277): each set becomes
an ascending sorted list of identifiers. -/
def buildSubmission (sets : AlertSets) : SubmissionBody :=
  { high_risk_patients := sets.highRisk.sort (· ≤ ·)
    fever_patients := sets.fever.sort (· ≤ ·)
    data_quality_issues := sets.dataIssues.sort (· ≤ ·) }

/-- Modelled from the specification of claim C6: the systolic category
table exactly as stated, with no value assigned where the stated bands
leave a gap (the open intervals between 129 and 130 and between 139 and
140). -/
def specSystolicCategory (s : ℚ) : Option ℕ :=
  if s < 120 then some 1
  else if 120 ≤ s ∧ s ≤ 129 then some 2
  else if 130 ≤ s ∧ s ≤ 139 then some 3
  else if 140 ≤ s then some 4
  else none

/-- Modelled from the specification of claim C6: the diastolic category
table exactly as stated, with no value assigned on the open interval
between 89 and 90. -/
def specDiastolicCategory (d : ℚ) : Option ℕ :=
  if d < 80 then some 1
  else if 80 ≤ d ∧ d ≤ 89 then some 3
  else if 90 ≤ d then some 4
  else none

/-- Example record for claim C5: identifier present, valid age 70 and
temperature 100, blood pressure null. -/
def exC5 : Patient :=
  { patient_id := some ("P1"), age := .num (.finite 70),
    temperature := .num (.finite 100), blood_pressure := .null }

/-- Patient with total risk score 3: blood pressure 110 over 70 scores 1,
temperature 100 scores 1, age 30 scores 1. -/
def px3 : Patient :=
  { patient_id := some ("A"), age := .num (.finite 30),
    temperature := .num (.finite 100), blood_pressure := .str ("110/70") }

/-- Patient with total risk score 4: blood pressure 110 over 70 scores 1,
temperature 100 scores 1, age 70 scores 2. -/
def px4 : Patient :=
  { patient_id := some ("B"), age := .num (.finite 70),
    temperature := .num (.finite 100), blood_pressure := .str ("110/70") }

/-- C4: toFiniteNumber returns a finite number unchanged, converts a
string through trimming and the Number() conversion keeping only finite
results, and returns absent for null, missing values, non-numeric
strings, NaN and the infinities. -/
theorem toFiniteNumber_contract :
    (∀ q : ℚ, toFiniteNumber (.num (.finite q)) = some q) ∧
    toFiniteNumber (.num .nan) = none ∧
    toFiniteNumber (.num .inf) = none ∧
    toFiniteNumber (.num .negInf) = none ∧
    (∀ s : String, ∀ q : ℚ,
      (toFiniteNumber (.str s) = some q ↔ jsStringToNumber (trimChars s.toList) = .finite q)) ∧
    toFiniteNumber .null = none ∧
    toFiniteNumber .undef = none ∧
    toFiniteNumber .other = none ∧
    toFiniteNumber (.str ("abc")) = none ∧
    toFiniteNumber (.str ("Infinity")) = none := by
  refine ⟨fun q => rfl, rfl, rfl, rfl, fun s q => ?_, rfl, rfl, rfl, by decide, by decide⟩
  simp only [toFiniteNumber, stringToFiniteNumber]
  cases h : jsStringToNumber (trimChars s.toList) <;> simp

/-- C5: the data-quality flag holds exactly when blood pressure,
temperature or age fails to normalize; the total score is always the sum
of the three independent field scores; and the example record with null
blood pressure but valid temperature and age is flagged while still
contributing nonzero temperature and age points. -/
theorem dataQuality_and_partial_scores :
    (∀ p : Patient, hasDataQualityIssue p = true ↔
        (parseBloodPressure p.blood_pressure = none ∨
          toFiniteNumber p.temperature = none ∨ toFiniteNumber p.age = none)) ∧
    (∀ p : Patient, totalRiskScore p =
        bloodPressureScore p.blood_pressure + temperatureScore p.temperature
          + ageScore p.age) ∧
    hasDataQualityIssue exC5 = true ∧
    0 < temperatureScore exC5.temperature ∧
    0 < ageScore exC5.age ∧
    totalRiskScore exC5 = temperatureScore exC5.temperature + ageScore exC5.age := by
  refine ⟨fun p => ?_, fun p => rfl, by decide, by decide, by decide, by decide⟩
  simp only [hasDataQualityIssue, Bool.or_eq_true, Option.isNone_iff_eq_none]
  tauto

/-- The systolic points of the code agree with the systolic category of
the specification wherever the latter is defined. -/
lemma sysPoints_of_specCat (s : ℚ) (c : ℕ) (h : specSystolicCategory s = some c) :
    sysPoints s = c := by
  unfold specSystolicCategory at h
  unfold sysPoints
  split_ifs at h ⊢ <;> simp_all

/-- The diastolic points of the code agree with the diastolic category of
the specification wherever the latter is defined. -/
lemma diaPoints_of_specCat (d : ℚ) (c : ℕ) (h : specDiastolicCategory d = some c) :
    diaPoints d = c := by
  unfold specDiastolicCategory at h
  unfold diaPoints
  split_ifs at h ⊢ <;> simp_all

/-- C6: whenever a blood-pressure value parses as systolic over diastolic
and both components fall in a band of the stated category tables, the
score is the maximum of the two categories; any input that fails to
parse scores 0. -/
theorem bloodPressureScore_matches_categories :
    (∀ bp sys dia sc dc, parseBloodPressure bp = some (sys, dia) →
        specSystolicCategory sys = some sc → specDiastolicCategory dia = some dc →
        bloodPressureScore bp = max sc dc) ∧
    (∀ bp, parseBloodPressure bp = none → bloodPressureScore bp = 0) := by
  constructor
  · intro bp sys dia sc dc hp hs hd
    simp [bloodPressureScore, hp, sysPoints_of_specCat sys sc hs,
      diaPoints_of_specCat dia dc hd]
  · intro bp hp
    simp [bloodPressureScore, hp]

/-- Witness for C6 at the concrete inputs 135 over 85 (both categories 3)
and a non-parsing string. -/
theorem bloodPressureScore_matches_categories_witness :
    bloodPressureScore (.str ("135/85")) = max 3 3 ∧
      bloodPressureScore (.str ("abc")) = 0 :=
  ⟨bloodPressureScore_matches_categories.1 (.str ("135/85")) 135 85 3 3
      (by decide) (by decide) (by decide),
    bloodPressureScore_matches_categories.2 (.str ("abc")) (by decide)⟩

/-- C10: a temperature strictly between 100.9 and 101.0 scores zero
temperature points while still flagging the record as a fever patient. -/
theorem feverGap_zero_temp_points (v : JsValue) (t : ℚ)
    (hv : toFiniteNumber v = some t) (h1 : q1009 < t) (h2 : t < q1010) :
    temperatureScore v = 0 ∧
      ∀ p : Patient, p.temperature = v → isFeverPatient p = true := by
  have hq1 : q995 < q1009 := by decide
  have hq2 : q996 < q1009 := by decide
  constructor
  · simp only [temperatureScore, hv]
    split_ifs with ha hb hc
    · rfl
    · exact absurd hb.2 (by linarith)
    · exact absurd hc (by linarith)
    · rfl
  · intro p hp
    simp only [isFeverPatient, hp, hv]
    exact decide_eq_true (by linarith)

/-- Witness for C10 at the concrete temperature 100.95. -/
theorem feverGap_zero_temp_points_witness :
    temperatureScore (.num (.finite (Rat.divInt 10095 100))) = 0 ∧
      ∀ p : Patient, p.temperature = .num (.finite (Rat.divInt 10095 100)) →
        isFeverPatient p = true :=
  feverGap_zero_temp_points (.num (.finite (Rat.divInt 10095 100)))
    (Rat.divInt 10095 100) rfl (by decide) (by decide)

/-- Two pages: the first has a non-empty data array containing no
record-like entry, the second contains a patient record. -/
def cexPages : List PageResp :=
  [{ data := some [.nonPatient], hasNext := true },
   { data := some [.patientLike px4], hasNext := true }]

/-- Counterexample to C2: on a page whose data array is non-empty but
contains zero record-like entries, the code keeps paginating (and
collects the patient on the next page), while the stated rule — stop at
the first page yielding zero record-like entries — would return nothing. -/
theorem pagination_termination_cex :
    fetchAllPatients cexPages = [px4] ∧ fetchAllPatientsSpecRule cexPages = [] := by
  decide

/-- C2 as amended: the loop appends only record-like entries; it stops at
the first page whose raw data collection is empty (a missing or
non-array data field counts as empty), continues otherwise, and its
result depends only on the data fields, never on the hasNext or other
pagination metadata. -/
theorem fetchAllPatients_amended :
    (∀ pgs : List PageResp, ∀ p ∈ fetchAllPatients pgs,
        ∃ pg ∈ pgs, RawEntry.patientLike p ∈ pageData pg) ∧
    (∀ pg rest, (pageData pg).isEmpty = true → fetchAllPatients (pg :: rest) = []) ∧
    (∀ pg rest, (pageData pg).isEmpty = false →
        fetchAllPatients (pg :: rest) =
          (pageData pg).filterMap entryToPatient ++ fetchAllPatients rest) ∧
    (∀ ps qs : List PageResp, ps.map PageResp.data = qs.map PageResp.data →
        fetchAllPatients ps = fetchAllPatients qs) := by
  refine ⟨?_, ?_, ?_, ?_⟩
  · intro pgs
    induction pgs with
    | nil => intro p hp; simp [fetchAllPatients] at hp
    | cons pg rest ih =>
        intro p hp
        by_cases h : (pageData pg).isEmpty
        · simp [fetchAllPatients, h] at hp
        · simp only [fetchAllPatients, h, if_neg, Bool.false_eq_true, if_false,
            List.mem_append] at hp
          rcases hp with hp | hp
          · obtain ⟨e, he, hconv⟩ := List.mem_filterMap.mp hp
            cases e with
            | patientLike q =>
                obtain rfl : q = p := by simpa [entryToPatient] using hconv
                exact ⟨pg, List.mem_cons_self pg rest, he⟩
            | nonPatient => simp [entryToPatient] at hconv
          · obtain ⟨pg2, h1, h2⟩ := ih p hp
            exact ⟨pg2, List.mem_cons_of_mem pg h1, h2⟩
  · intro pg rest h
    simp [fetchAllPatients, h]
  · intro pg rest h
    simp [fetchAllPatients, h]
  · intro ps
    induction ps with
    | nil =>
        intro qs h
        cases qs with
        | nil => rfl
        | cons q qs2 => simp at h
    | cons p ps2 ih =>
        intro qs h
        cases qs with
        | nil => simp at h
        | cons q qs2 =>
            simp only [List.map_cons, List.cons.injEq] at h
            have hd : pageData p = pageData q := by unfold pageData; rw [h.1]
            simp only [fetchAllPatients, hd]
            by_cases he : (pageData q).isEmpty
            · simp [he]
            · simp [he, ih qs2 h.2]

/-- Witness for C2 as amended: a page with an empty data array and
hasNext true stops pagination even though another page with a record
follows. -/
theorem fetchAllPatients_amended_witness :
    fetchAllPatients
      [{ data := some [], hasNext := true },
       { data := some [.patientLike px4], hasNext := true }] = [] :=
  fetchAllPatients_amended.2.1 { data := some [], hasNext := true }
    [{ data := some [.patientLike px4], hasNext := true }] (by decide)

/-- Membership in the high-risk set after processing one patient. -/
lemma mem_processPatient_highRisk (acc : AlertSets) (p : Patient) (s : String) :
    s ∈ (processPatient acc p).highRisk ↔
      s ∈ acc.highRisk ∨ (p.patient_id = some s ∧ s ≠ "" ∧ 4 ≤ totalRiskScore p) := by
  unfold processPatient
  cases hid : p.patient_id with
  | none => simp
  | some id =>
      by_cases he : id = ""
      · subst he
        simp only [if_pos rfl]
        constructor
        · exact Or.inl
        · rintro (h | ⟨h1, h2, h3⟩)
          · exact h
          · cases h1; exact absurd rfl h2
      · simp only [if_neg he]
        by_cases hsc : 4 ≤ totalRiskScore p
        · simp only [if_pos hsc, Finset.mem_insert]
          constructor
          · rintro (rfl | h)
            · exact Or.inr ⟨rfl, he, hsc⟩
            · exact Or.inl h
          · rintro (h | ⟨h1, h2, h3⟩)
            · exact Or.inr h
            · cases h1; exact Or.inl rfl
        · simp only [if_neg hsc]
          constructor
          · exact Or.inl
          · rintro (h | ⟨h1, h2, h3⟩)
            · exact h
            · exact absurd h3 hsc

/-- Membership in the fever set after processing one patient. -/
lemma mem_processPatient_fever (acc : AlertSets) (p : Patient) (s : String) :
    s ∈ (processPatient acc p).fever ↔
      s ∈ acc.fever ∨ (p.patient_id = some s ∧ s ≠ "" ∧ isFeverPatient p = true) := by
  unfold processPatient
  cases hid : p.patient_id with
  | none => simp
  | some id =>
      by_cases he : id = ""
      · subst he
        simp only [if_pos rfl]
        constructor
        · exact Or.inl
        · rintro (h | ⟨h1, h2, h3⟩)
          · exact h
          · cases h1; exact absurd rfl h2
      · simp only [if_neg he]
        by_cases hf : isFeverPatient p = true
        · simp only [if_pos hf, Finset.mem_insert]
          constructor
          · rintro (rfl | h)
            · exact Or.inr ⟨rfl, he, hf⟩
            · exact Or.inl h
          · rintro (h | ⟨h1, h2, h3⟩)
            · exact Or.inr h
            · cases h1; exact Or.inl rfl
        · simp only [if_neg hf]
          constructor
          · exact Or.inl
          · rintro (h | ⟨h1, h2, h3⟩)
            · exact h
            · exact absurd h3 hf

/-- Membership in the data-quality set after processing one patient. -/
lemma mem_processPatient_dataIssues (acc : AlertSets) (p : Patient) (s : String) :
    s ∈ (processPatient acc p).dataIssues ↔
      s ∈ acc.dataIssues ∨ (p.patient_id = some s ∧ s ≠ "" ∧ hasDataQualityIssue p = true) := by
  unfold processPatient
  cases hid : p.patient_id with
  | none => simp
  | some id =>
      by_cases he : id = ""
      · subst he
        simp only [if_pos rfl]
        constructor
        · exact Or.inl
        · rintro (h | ⟨h1, h2, h3⟩)
          · exact h
          · cases h1; exact absurd rfl h2
      · simp only [if_neg he]
        by_cases hq : hasDataQualityIssue p = true
        · simp only [if_pos hq, Finset.mem_insert]
          constructor
          · rintro (rfl | h)
            · exact Or.inr ⟨rfl, he, hq⟩
            · exact Or.inl h
          · rintro (h | ⟨h1, h2, h3⟩)
            · exact Or.inr h
            · cases h1; exact Or.inl rfl
        · simp only [if_neg hq]
          constructor
          · exact Or.inl
          · rintro (h | ⟨h1, h2, h3⟩)
            · exact h
            · exact absurd h3 hq

/-- Membership in the high-risk set of the classification loop. -/
lemma mem_classify_highRisk (l : List Patient) (acc : AlertSets) (s : String) :
    s ∈ (l.foldl processPatient acc).highRisk ↔
      s ∈ acc.highRisk ∨ ∃ p ∈ l, p.patient_id = some s ∧ s ≠ "" ∧ 4 ≤ totalRiskScore p := by
  induction l generalizing acc with
  | nil => simp
  | cons p rest ih =>
      rw [List.foldl_cons, ih, mem_processPatient_highRisk]
      simp only [List.exists_mem_cons_iff]
      tauto

/-- Membership in the fever set of the classification loop. -/
lemma mem_classify_fever (l : List Patient) (acc : AlertSets) (s : String) :
    s ∈ (l.foldl processPatient acc).fever ↔
      s ∈ acc.fever ∨ ∃ p ∈ l, p.patient_id = some s ∧ s ≠ "" ∧ isFeverPatient p = true := by
  induction l generalizing acc with
  | nil => simp
  | cons p rest ih =>
      rw [List.foldl_cons, ih, mem_processPatient_fever]
      simp only [List.exists_mem_cons_iff]
      tauto

/-- Membership in the data-quality set of the classification loop. -/
lemma mem_classify_dataIssues (l : List Patient) (acc : AlertSets) (s : String) :
    s ∈ (l.foldl processPatient acc).dataIssues ↔
      s ∈ acc.dataIssues ∨ ∃ p ∈ l, p.patient_id = some s ∧ s ≠ "" ∧ hasDataQualityIssue p = true := by
  induction l generalizing acc with
  | nil => simp
  | cons p rest ih =>
      rw [List.foldl_cons, ih, mem_processPatient_dataIssues]
      simp only [List.exists_mem_cons_iff]
      tauto

/-- C8: an identifier is in the high-risk set exactly when some processed
record with that non-empty identifier has total score at least 4; in
particular a record of total score 3 is excluded and one of total score
4 is included. -/
theorem highRisk_threshold :
    (∀ patients s, s ∈ (classify patients).highRisk ↔
        ∃ p ∈ patients, p.patient_id = some s ∧ s ≠ "" ∧ 4 ≤ totalRiskScore p) ∧
    (∀ p : Patient, ∀ s, p.patient_id = some s → s ≠ "" → totalRiskScore p = 3 →
        s ∉ (classify [p]).highRisk) ∧
    (∀ p : Patient, ∀ s, p.patient_id = some s → s ≠ "" → totalRiskScore p = 4 →
        s ∈ (classify [p]).highRisk) := by
  have hmem : ∀ patients s, s ∈ (classify patients).highRisk ↔
      ∃ p ∈ patients, p.patient_id = some s ∧ s ≠ "" ∧ 4 ≤ totalRiskScore p := by
    intro patients s
    unfold classify
    rw [mem_classify_highRisk]
    simp
  refine ⟨hmem, ?_, ?_⟩
  · intro p s h1 h2 h3 hmem2
    rw [hmem] at hmem2
    obtain ⟨q, hq, g1, g2, g3⟩ := hmem2
    obtain rfl : q = p := by simpa using hq
    omega
  · intro p s h1 h2 h3
    rw [hmem]
    exact ⟨p, by simp, h1, h2, by omega⟩

/-- Witness for C8: px3 has total score 3 and stays out of the high-risk
set, px4 has total score 4 and is included. -/
theorem highRisk_threshold_witness :
    ("A") ∉ (classify [px3]).highRisk ∧ ("B") ∈ (classify [px4]).highRisk :=
  ⟨highRisk_threshold.2.1 px3 ("A") rfl (by decide) (by decide),
    highRisk_threshold.2.2 px4 ("B") rfl (by decide) (by decide)⟩

/-- C9: the three finalized submission lists are sorted ascending in the
string order, contain no duplicates, and hence list any identifier at
most once however many fetched records carried it. -/
theorem submission_lists_sorted_nodup (patients : List Patient) :
    (List.Sorted (· ≤ ·) (buildSubmission (classify patients)).high_risk_patients ∧
      (buildSubmission (classify patients)).high_risk_patients.Nodup ∧
      ∀ s, (buildSubmission (classify patients)).high_risk_patients.count s ≤ 1) ∧
    (List.Sorted (· ≤ ·) (buildSubmission (classify patients)).fever_patients ∧
      (buildSubmission (classify patients)).fever_patients.Nodup ∧
      ∀ s, (buildSubmission (classify patients)).fever_patients.count s ≤ 1) ∧
    (List.Sorted (· ≤ ·) (buildSubmission (classify patients)).data_quality_issues ∧
      (buildSubmission (classify patients)).data_quality_issues.Nodup ∧
      ∀ s, (buildSubmission (classify patients)).data_quality_issues.count s ≤ 1) := by
  refine ⟨⟨?_, ?_, ?_⟩, ⟨?_, ?_, ?_⟩, ⟨?_, ?_, ?_⟩⟩ <;>
    first
      | exact Finset.sort_sorted _ _
      | exact Finset.sort_nodup _ _
      | exact fun s => List.nodup_iff_count_le_one.mp (Finset.sort_nodup _ _) s

/-- When an attempt succeeds, the loop returns at once with no wait,
whatever the remaining budget. -/
lemma fetchGo_success_of (d : ℕ) (j : ℕ → ℕ) (rs : ℕ → HttpResp)
    (attempt remaining : ℕ) (b : String)
    (h : attemptResult (rs attempt) = .success b) :
    fetchGo d j rs attempt remaining = (.success b, []) := by
  cases remaining <;> simp [fetchGo, h]

/-- When an attempt fails and budget remains, the loop waits the backoff
for this attempt and continues with the next one. -/
lemma fetchGo_failStep (d : ℕ) (j : ℕ → ℕ) (rs : ℕ → HttpResp)
    (attempt r : ℕ) (f : FailReason)
    (h : attemptResult (rs attempt) = .failure f) :
    fetchGo d j rs attempt (r + 1) =
      ((fetchGo d j rs (attempt + 1) r).1,
        (d * 2 ^ attempt + j attempt) :: (fetchGo d j rs (attempt + 1) r).2) := by
  simp [fetchGo, h]

/-- Every wait the loop records is the exponential backoff of its attempt
index plus that attempt's jitter. -/
lemma fetchGo_waits (d : ℕ) (j : ℕ → ℕ) (rs : ℕ → HttpResp) :
    ∀ remaining attempt i w,
      (fetchGo d j rs attempt remaining).2[i]? = some w →
      w = d * 2 ^ (attempt + i) + j (attempt + i) := by
  intro remaining
  induction remaining with
  | zero =>
      intro attempt i w h
      simp [fetchGo] at h
  | succ r ih =>
      intro attempt i w h
      cases hA : attemptResult (rs attempt) with
      | success b =>
          rw [fetchGo_success_of d j rs attempt (r + 1) b hA] at h
          simp at h
      | failure f =>
          rw [fetchGo_failStep d j rs attempt r f hA] at h
          cases i with
          | zero =>
              simp at h
              simpa using h.symm
          | succ i2 =>
              simp at h
              have h2 := ih (attempt + 1) i2 w h
              have hidx : attempt + 1 + i2 = attempt + (i2 + 1) := by omega
              rw [hidx] at h2
              exact h2

/-- A transient attempt outcome is a failure value in the loop. -/
lemma isTransient_attemptResult (r : HttpResp) (h : isTransient r = true) :
    ∃ f, attemptResult r = .failure f := by
  cases r with
  | net => exact ⟨.network, rfl⟩
  | resp s b g =>
      by_cases hr : isRetryableStatus s = true
      · exact ⟨.exhausted s b, by simp [attemptResult, hr]⟩
      · have hok : isOk s = true ∧ g = false := by
          simp [isTransient, hr] at h
          simpa using h
        by_cases ho : isOk s = true
        · exact ⟨.badJson, by simp [attemptResult, hr, ho, hok.2]⟩
        · exact absurd hok.1 ho

/-- When every consulted attempt is transient, the loop surfaces a
failure after performing exactly one wait per remaining attempt. -/
lemma fetchGo_exhausts (d : ℕ) (j : ℕ → ℕ) (rs : ℕ → HttpResp) :
    ∀ remaining attempt,
      (∀ a, a ≤ attempt + remaining → isTransient (rs a) = true) →
      (∃ f, (fetchGo d j rs attempt remaining).1 = .failure f) ∧
      (fetchGo d j rs attempt remaining).2.length = remaining := by
  intro remaining
  induction remaining with
  | zero =>
      intro attempt h
      obtain ⟨f, hf⟩ := isTransient_attemptResult _ (h attempt (by omega))
      exact ⟨⟨f, by simp [fetchGo, hf]⟩, by simp [fetchGo]⟩
  | succ r ih =>
      intro attempt h
      obtain ⟨f, hf⟩ := isTransient_attemptResult _ (h attempt (by omega))
      rw [fetchGo_failStep d j rs attempt r f hf]
      have ihr := ih (attempt + 1) (fun a ha => h a (by omega))
      exact ⟨ihr.1, by simp [ihr.2]⟩

/-- Response sequence answering 429 on the first two attempts and 200
with a good body afterwards. -/
def resp429 : ℕ → HttpResp := fun a =>
  if a < 2 then .resp 429 ("Too Many Requests") true else .resp 200 ("ok") true

/-- C7: over any response sequence whose consulted attempts are all
transient (retryable status, network failure, or unparseable body), the
transport surfaces a failure only after performing one backoff wait per
configured retry; every recorded wait equals baseDelay times two to the
attempt index plus that attempt's jitter, hence is below the backoff
plus 150 when the jitter is so bounded; and a call answered 429 twice
then 200 succeeds after exactly the two backoff waits. -/
theorem fetchWithRetry_backoff_schedule :
    (∀ retries baseDelayMs jitter responses,
      (∀ a, a ≤ retries → isTransient (responses a) = true) →
      (∃ f, (fetchWithRetry retries baseDelayMs jitter responses).1 = .failure f) ∧
      (fetchWithRetry retries baseDelayMs jitter responses).2.length = retries) ∧
    (∀ retries baseDelayMs jitter responses i w,
      (fetchWithRetry retries baseDelayMs jitter responses).2[i]? = some w →
      w = baseDelayMs * 2 ^ i + jitter i ∧
        ((∀ a, jitter a < 150) → w < baseDelayMs * 2 ^ i + 150)) ∧
    (∀ retries baseDelayMs jitter, 2 ≤ retries →
      fetchWithRetry retries baseDelayMs jitter resp429 =
        (.success ("ok"),
          [baseDelayMs * 2 ^ 0 + jitter 0, baseDelayMs * 2 ^ 1 + jitter 1])) := by
  refine ⟨?_, ?_, ?_⟩
  · intro retries d j rs h
    exact fetchGo_exhausts d j rs retries 0 (fun a ha => h a (by omega))
  · intro retries d j rs i w h
    have hw := fetchGo_waits d j rs retries 0 i w h
    simp only [Nat.zero_add] at hw
    refine ⟨hw, fun hj => ?_⟩
    rw [hw]
    exact Nat.add_lt_add_left (hj i) _
  · intro retries d j h2
    obtain ⟨r, rfl⟩ : ∃ r, retries = r + 1 + 1 := ⟨retries - 2, by omega⟩
    have h0 : attemptResult (resp429 0) = .failure (.exhausted 429 ("Too Many Requests")) := rfl
    have h1 : attemptResult (resp429 1) = .failure (.exhausted 429 ("Too Many Requests")) := rfl
    have hs : attemptResult (resp429 2) = .success ("ok") := rfl
    unfold fetchWithRetry
    rw [fetchGo_failStep d j resp429 0 (r + 1) _ h0,
      fetchGo_failStep d j resp429 1 r _ h1,
      fetchGo_success_of d j resp429 2 r ("ok") hs]

/-- Witness for C7: with retry budget 6, base delay 250 and zero jitter,
the 429-429-200 sequence succeeds after waits of 250 and 500. -/
theorem fetchWithRetry_backoff_schedule_witness :
    fetchWithRetry 6 250 (fun _ => 0) resp429 =
      (.success ("ok"), [250 * 2 ^ 0 + 0, 250 * 2 ^ 1 + 0]) :=
  fetchWithRetry_backoff_schedule.2.2 6 250 (fun _ => 0) (by decide)

/-- Response sequence answering 404 on the first attempt and 200 with a
good body afterwards. -/
def resp404 : ℕ → HttpResp := fun a =>
  if a = 0 then .resp 404 ("not found") true else .resp 200 ("ok") true

/-- C1 evaluated on the code: attempt 0 produces the non-retryable
HTTP 404 failure, yet with one retry remaining the transport performs a
backoff wait and retries, ultimately succeeding — the fatal error thrown
at index.ts line 159 is caught by the catch of the same try block, so a
non-retryable status is not surfaced immediately. -/
theorem nonRetryable_status_is_retried :
    attemptResult (resp404 0) = .failure (.fatalHttp 404 ("not found")) ∧
      fetchWithRetry 1 250 (fun _ => 0) resp404 =
        (.success ("ok"), [250 * 2 ^ 0 + 0]) := by
  exact ⟨rfl, by decide⟩

/-- JavaScript truthiness as the guard of main (index.ts line 264, the
test if not id then continue) applies it: false, 0, NaN, the empty
string, null and undefined are falsy; every other value is truthy. -/
def isTruthy : JsValue → Bool
  | .num (.finite q) => if q = 0 then false else true
  | .num .nan => false
  | .num .inf => true
  | .num .negInf => true
  | .str s => if s = "" then false else true
  | .bool b => b
  | .null => false
  | .undef => false
  | .other => true

/-- A fetched record exactly as the classification loop of main sees it:
the record-like filter (index.ts line 200) checks only that the
patient_id key is present, and the cast at line 201 is unchecked, so the
identifier field can hold any JavaScript value at runtime. -/
structure RawPatient where
  patient_id : JsValue
  age : JsValue
  temperature : JsValue
  blood_pressure : JsValue
deriving DecidableEq

/-- hasDataQualityIssue (index.ts lines 111-116) applied to an
untrusted-identifier record; the identifier plays no role. -/
def rawHasDataQualityIssue (p : RawPatient) : Bool :=
  (parseBloodPressure p.blood_pressure).isNone
    || (toFiniteNumber p.temperature).isNone
    || (toFiniteNumber p.age).isNone

/-- isFeverPatient (index.ts lines 118-121) applied to an
untrusted-identifier record. -/
def rawIsFeverPatient (p : RawPatient) : Bool :=
  match toFiniteNumber p.temperature with
  | none => false
  | some t => decide (q996 ≤ t)

/-- totalRiskScore (index.ts lines 123-129) applied to an
untrusted-identifier record. -/
def rawTotalRiskScore (p : RawPatient) : ℕ :=
  bloodPressureScore p.blood_pressure + temperatureScore p.temperature
    + ageScore p.age

/-- The three alert sets of main when the identifiers are carried as the
runtime values they are, not as the declared strings. -/
structure RawAlertSets where
  highRisk : Finset JsValue
  fever : Finset JsValue
  dataIssues : Finset JsValue

/-- One iteration of the classification loop of main (index.ts lines
262-271) over an untrusted-identifier record: skip the record when its
identifier is falsy, otherwise add the identifier value itself to each
set whose condition holds. -/
def processRawPatient (sets : RawAlertSets) (p : RawPatient) : RawAlertSets :=
  if isTruthy p.patient_id then
    { highRisk := if 4 ≤ rawTotalRiskScore p then insert p.patient_id sets.highRisk
        else sets.highRisk
      fever := if rawIsFeverPatient p then insert p.patient_id sets.fever
        else sets.fever
      dataIssues := if rawHasDataQualityIssue p then insert p.patient_id sets.dataIssues
        else sets.dataIssues }
  else sets

/-- The classification loop of main over untrusted-identifier records,
starting from three empty sets. -/
def classifyRaw (patients : List RawPatient) : RawAlertSets :=
  patients.foldl processRawPatient ⟨∅, ∅, ∅⟩

/-- Any member of the high-risk set after one step came from the
accumulator or is the truthy identifier of the processed record. -/
lemma mem_processRawPatient_highRisk (sets : RawAlertSets) (p : RawPatient)
    (x : JsValue) (h : x ∈ (processRawPatient sets p).highRisk) :
    x ∈ sets.highRisk ∨ (p.patient_id = x ∧ isTruthy x = true) := by
  unfold processRawPatient at h
  by_cases ht : isTruthy p.patient_id = true
  · rw [if_pos ht] at h
    dsimp only at h
    by_cases hc : 4 ≤ rawTotalRiskScore p
    · rw [if_pos hc, Finset.mem_insert] at h
      rcases h with rfl | h
      · exact Or.inr ⟨rfl, ht⟩
      · exact Or.inl h
    · rw [if_neg hc] at h
      exact Or.inl h
  · rw [if_neg ht] at h
    exact Or.inl h

/-- Any member of the fever set after one step came from the accumulator
or is the truthy identifier of the processed record. -/
lemma mem_processRawPatient_fever (sets : RawAlertSets) (p : RawPatient)
    (x : JsValue) (h : x ∈ (processRawPatient sets p).fever) :
    x ∈ sets.fever ∨ (p.patient_id = x ∧ isTruthy x = true) := by
  unfold processRawPatient at h
  by_cases ht : isTruthy p.patient_id = true
  · rw [if_pos ht] at h
    dsimp only at h
    by_cases hc : rawIsFeverPatient p = true
    · rw [if_pos hc, Finset.mem_insert] at h
      rcases h with rfl | h
      · exact Or.inr ⟨rfl, ht⟩
      · exact Or.inl h
    · rw [if_neg hc] at h
      exact Or.inl h
  · rw [if_neg ht] at h
    exact Or.inl h

/-- Any member of the data-quality set after one step came from the
accumulator or is the truthy identifier of the processed record. -/
lemma mem_processRawPatient_dataIssues (sets : RawAlertSets) (p : RawPatient)
    (x : JsValue) (h : x ∈ (processRawPatient sets p).dataIssues) :
    x ∈ sets.dataIssues ∨ (p.patient_id = x ∧ isTruthy x = true) := by
  unfold processRawPatient at h
  by_cases ht : isTruthy p.patient_id = true
  · rw [if_pos ht] at h
    dsimp only at h
    by_cases hc : rawHasDataQualityIssue p = true
    · rw [if_pos hc, Finset.mem_insert] at h
      rcases h with rfl | h
      · exact Or.inr ⟨rfl, ht⟩
      · exact Or.inl h
    · rw [if_neg hc] at h
      exact Or.inl h
  · rw [if_neg ht] at h
    exact Or.inl h

/-- Any member of the high-risk set of the loop came from the accumulator
or is the truthy identifier of some processed record. -/
lemma mem_classifyRaw_highRisk (l : List RawPatient) :
    ∀ (acc : RawAlertSets) (x : JsValue),
      x ∈ (l.foldl processRawPatient acc).highRisk →
      x ∈ acc.highRisk ∨ ∃ p ∈ l, p.patient_id = x ∧ isTruthy x = true := by
  induction l with
  | nil => intro acc x h; exact Or.inl h
  | cons p rest ih =>
      intro acc x h
      rw [List.foldl_cons] at h
      rcases ih _ x h with h2 | ⟨q, hq, h3, h4⟩
      · rcases mem_processRawPatient_highRisk acc p x h2 with h3 | ⟨h4, h5⟩
        · exact Or.inl h3
        · exact Or.inr ⟨p, List.mem_cons_self p rest, h4, h5⟩
      · exact Or.inr ⟨q, List.mem_cons_of_mem p hq, h3, h4⟩

/-- Any member of the fever set of the loop came from the accumulator or
is the truthy identifier of some processed record. -/
lemma mem_classifyRaw_fever (l : List RawPatient) :
    ∀ (acc : RawAlertSets) (x : JsValue),
      x ∈ (l.foldl processRawPatient acc).fever →
      x ∈ acc.fever ∨ ∃ p ∈ l, p.patient_id = x ∧ isTruthy x = true := by
  induction l with
  | nil => intro acc x h; exact Or.inl h
  | cons p rest ih =>
      intro acc x h
      rw [List.foldl_cons] at h
      rcases ih _ x h with h2 | ⟨q, hq, h3, h4⟩
      · rcases mem_processRawPatient_fever acc p x h2 with h3 | ⟨h4, h5⟩
        · exact Or.inl h3
        · exact Or.inr ⟨p, List.mem_cons_self p rest, h4, h5⟩
      · exact Or.inr ⟨q, List.mem_cons_of_mem p hq, h3, h4⟩

/-- Any member of the data-quality set of the loop came from the
accumulator or is the truthy identifier of some processed record. -/
lemma mem_classifyRaw_dataIssues (l : List RawPatient) :
    ∀ (acc : RawAlertSets) (x : JsValue),
      x ∈ (l.foldl processRawPatient acc).dataIssues →
      x ∈ acc.dataIssues ∨ ∃ p ∈ l, p.patient_id = x ∧ isTruthy x = true := by
  induction l with
  | nil => intro acc x h; exact Or.inl h
  | cons p rest ih =>
      intro acc x h
      rw [List.foldl_cons] at h
      rcases ih _ x h with h2 | ⟨q, hq, h3, h4⟩
      · rcases mem_processRawPatient_dataIssues acc p x h2 with h3 | ⟨h4, h5⟩
        · exact Or.inl h3
        · exact Or.inr ⟨p, List.mem_cons_self p rest, h4, h5⟩
      · exact Or.inr ⟨q, List.mem_cons_of_mem p hq, h3, h4⟩

/-- A record whose patient_id is the number 42: truthy, so the guard of
main admits it, and its valid temperature 100 makes it a fever patient. -/
def r42 : RawPatient :=
  { patient_id := .num (.finite 42), age := .num (.finite 30),
    temperature := .num (.finite 100), blood_pressure := .str ("110/70") }

/-- Counterexample to C3: processing the record whose patient_id is the
number 42 puts the value 42 — not a string, let alone a non-empty one —
into the fever alert set, because the filter at index.ts line 200 checks
only key presence and the guard of main only truthiness. -/
theorem alertSet_id_not_string_cex :
    JsValue.num (.finite 42) ∈ (classifyRaw [r42]).fever ∧
      ∀ s : String, JsValue.num (.finite 42) ≠ JsValue.str s := by
  exact ⟨by decide, fun s => by simp⟩

/-- C3 as amended: every identifier placed in any of the three alert sets
is the patient_id value of some processed record and that value is
truthy — records with a falsy identifier (absent, undefined, null,
false, 0, NaN or the empty string) are excluded from all three sets; in
particular an identifier that is a string is a non-empty string, but a
truthy non-string identifier is admitted as-is. -/
theorem alertSet_ids_truthy (patients : List RawPatient) (x : JsValue)
    (h : x ∈ (classifyRaw patients).highRisk ∨ x ∈ (classifyRaw patients).fever
        ∨ x ∈ (classifyRaw patients).dataIssues) :
    (∃ p ∈ patients, p.patient_id = x) ∧ isTruthy x = true ∧
      ∀ s, x = .str s → s ≠ "" := by
  have main : (∃ p ∈ patients, p.patient_id = x) ∧ isTruthy x = true := by
    unfold classifyRaw at h
    rcases h with h | h | h
    · rcases mem_classifyRaw_highRisk patients _ x h with h2 | ⟨p, hp, h1, h2⟩
      · simp at h2
      · exact ⟨⟨p, hp, h1⟩, h2⟩
    · rcases mem_classifyRaw_fever patients _ x h with h2 | ⟨p, hp, h1, h2⟩
      · simp at h2
      · exact ⟨⟨p, hp, h1⟩, h2⟩
    · rcases mem_classifyRaw_dataIssues patients _ x h with h2 | ⟨p, hp, h1, h2⟩
      · simp at h2
      · exact ⟨⟨p, hp, h1⟩, h2⟩
  refine ⟨main.1, main.2, ?_⟩
  rintro s rfl hse
  subst hse
  exact absurd main.2 (by decide)

/-- A record with the non-empty string identifier B and fever-grade
temperature, for witnessing the amended C3 on a string identifier. -/
def rawB : RawPatient :=
  { patient_id := .str ("B"), age := .num (.finite 70),
    temperature := .num (.finite 100), blood_pressure := .str ("110/70") }

/-- Witness for the amended C3: the string identifier B lands in the
fever set, comes from a processed record, is truthy, and is non-empty. -/
theorem alertSet_ids_truthy_witness :
    (JsValue.str ("B") ∈ (classifyRaw [rawB]).fever) ∧
      ((∃ p ∈ [rawB], p.patient_id = JsValue.str ("B")) ∧
        isTruthy (JsValue.str ("B")) = true ∧
        ∀ s, JsValue.str ("B") = JsValue.str s → s ≠ "") :=
  ⟨by decide, alertSet_ids_truthy [rawB] (JsValue.str ("B"))
    (Or.inr (Or.inl (by decide)))⟩
